import Mathlib

/-!
Verification of the auto-discovery and resolution core of the PwTest BDD
framework: the active-page resolver (Support/testSetup.js, also shipped as
Support/activePageResolver.js inside Support/bdd.js's module group), the
URL-matching predicate (pages/BasePage.js), the locator builder
(Support/ElementFactory.js), the page registry builders
(Support/pageRegistry.js and the consolidated PageFactory._buildRegistry),
the page factory cache (Support/PageFactory.js), the element-name resolver
and config-value resolver (Support/elementRegistry.js), and the startup
catalog validation (validateRegistry in the consolidated elementRegistry).

JavaScript strings are modelled as Lean strings (lists of characters);
possibly-absent string values, such as optional object properties, are
modelled as Option String, with JavaScript truthiness made explicit
(undefined and the empty string are falsy).  Fallible code returns
Except String.  Page-object and page-class instances are modelled by
small records; reference identity of constructed instances is modelled by
a fresh numeric id drawn from a counter threaded through the factory
state, so that two distinct constructions never compare equal.
-/

namespace PwTest

/-- JavaScript String.prototype.toLowerCase, on the ASCII alphabet used by
the framework's file and key names. -/
def jsToLower (s : String) : String :=
  String.mk (s.data.map Char.toLower)

/-- JavaScript String.prototype.startsWith. -/
def jsStartsWith (s p : String) : Bool :=
  p.data.isPrefixOf s.data

/-- JavaScript String.prototype.endsWith. -/
def jsEndsWith (s p : String) : Bool :=
  p.data.isSuffixOf s.data

/-- Helper for jsIncludes: does sub occur as a contiguous run inside l? -/
def containsAux (l sub : List Char) : Bool :=
  l.tails.any (fun t => sub.isPrefixOf t)

/-- JavaScript String.prototype.includes. -/
def jsIncludes (s sub : String) : Bool :=
  containsAux s.data sub.data

/-- JavaScript String.prototype.replace with a plain-string pattern:
replaces only the first occurrence of the pattern (here always by the
empty string, the only use in the framework). -/
def replaceFirstAux (pat : List Char) : List Char → List Char
  | [] => []
  | c :: cs =>
    if pat.isPrefixOf (c :: cs) then (c :: cs).drop pat.length
    else c :: replaceFirstAux pat cs

/-- JavaScript s.replace(pat, ”), first-occurrence removal on strings. -/
def jsReplaceFirst (s pat : String) : String :=
  String.mk (replaceFirstAux pat.data s.data)

/-- JavaScript Array.prototype.join. -/
def jsJoin (sep : String) : List String → String
  | [] => ""
  | [x] => x
  | x :: y :: rest => x ++ sep ++ jsJoin sep (y :: rest)

/-- JavaScript own-property lookup on an object literal, modelled as an
association list in insertion order. -/
def jsLookup {α : Type} (m : List (String × α)) (k : String) : Option α :=
  match m with
  | [] => none
  | (k', v) :: rest => if k' = k then some v else jsLookup rest k

/-- JavaScript truthiness of a possibly-undefined string value:
undefined and the empty string are falsy. -/
def truthy : Option String → Bool
  | none => false
  | some s => !(s == "")

/-! ### Active Page Resolver (resolveActivePage in Support/testSetup.js) -/

/-- A constructed page object as the resolver sees it: a numeric identity
tag and the observable behaviour of its isAt method (none when the object
exposes no such method, some b when calling it returns b). -/
structure PageObj where
  id : Nat
  isAt : Option Bool
deriving DecidableEq, Repr

/-- The options bag of resolveActivePage. -/
structure ResolveOptions where
  throwOnNotFound : Bool
  fallbackToFirst : Bool
deriving DecidableEq, Repr

/-- A JavaScript value returned by resolveActivePage: a page object,
null, or undefined (the latter arises from indexing an empty array). -/
inductive ResolveResult where
  | page (po : PageObj)
  | nullv
  | undef
deriving DecidableEq, Repr

/-- Is the result an actual page object? -/
def ResolveResult.isPage : ResolveResult → Bool
  | .page _ => true
  | _ => false

/-- The scan loop of resolveActivePage: first entry, in insertion order,
whose isAt method exists and returns true. -/
def findActive : List (String × PageObj) → Option PageObj
  | [] => none
  | (_, po) :: rest =>
    if po.isAt = some true then some po else findActive rest

/-- The NoActivePage error message, listing the candidate keys. -/
def noActivePageMsg (keys : List String) : String :=
  "Active page could not be determined. Available pages: " ++
    jsJoin ", " keys ++ ". Ensure each POM implements isAt() method."

/-- resolveActivePage from Support/testSetup.js (identical copy in
Support/activePageResolver.js): scan in insertion order for a page whose
isAt() is true; otherwise throw, fall back to the first entry (undefined
when the map is empty), or return null, according to the options. -/
def resolveActivePage (pageObjects : List (String × PageObj))
    (options : ResolveOptions) : Except String ResolveResult :=
  match findActive pageObjects with
  | some po => .ok (.page po)
  | none =>
    if options.throwOnNotFound then
      .error (noActivePageMsg (pageObjects.map Prod.fst))
    else if options.fallbackToFirst then
      .ok (match pageObjects.head? with
           | some kp => .page kp.snd
           | none => .undef)
    else
      .ok .nullv

/-! ### URL-matching predicate (pages/BasePage.js) -/

/-- BasePage.normalize: strip a single trailing slash (the regex replace
of a final slash by nothing), then lowercase. -/
def normalize (url : String) : String :=
  jsToLower (if jsEndsWith url "/" then String.mk url.data.dropLast else url)

/-- BasePage.isAt: false when the configured url is falsy (null or the
empty string); otherwise compare the normalized current browser URL with
the normalized configured URL by equality or prefix. -/
def isAt (pageUrl : Option String) (currentUrl : String) : Bool :=
  if !(truthy pageUrl) then false
  else
    let c := normalize currentUrl
    let p := normalize (pageUrl.getD "")
    c == p || jsStartsWith c p

/-! ### Locator builder (Support/ElementFactory.js createLocator) -/

/-- The declarative element definition destructured by createLocator.
Each field is an optional string (undefined when absent). -/
structure ElementDefinition where
  role : Option String
  name : Option String
  testId : Option String
  text : Option String
  placeholder : Option String
  locator : Option String
  label : Option String
  altText : Option String
  title : Option String
  frame : Option String
deriving DecidableEq, Repr

/-- The element definition with every field undefined. -/
def emptyDefinition : ElementDefinition :=
  ⟨none, none, none, none, none, none, none, none, none, none⟩

/-- The Playwright locator value produced by createLocator, as a deferred
query description (construction performs no I/O). -/
inductive Locator where
  | getByRole (role : String) (nameOpt : Option String)
  | getByTestId (id : String)
  | getByText (t : String)
  | getByPlaceholder (p : String)
  | getByLabel (l : String)
  | getByAltText (a : String)
  | getByTitle (t : String)
  | frameLocator (sel : String)
  | locator (sel : String)
deriving DecidableEq, Repr

/-- createLocator from Support/ElementFactory.js: a chain of truthiness
tests in source order.  The thrown message's JSON rendering of the
definition is abstracted to its constant prefix. -/
def createLocator (d : ElementDefinition) : Except String Locator :=
  if truthy d.role then
    .ok (.getByRole (d.role.getD "") (if truthy d.name then d.name else none))
  else if truthy d.testId then .ok (.getByTestId (d.testId.getD ""))
  else if truthy d.text then .ok (.getByText (d.text.getD ""))
  else if truthy d.placeholder then .ok (.getByPlaceholder (d.placeholder.getD ""))
  else if truthy d.label then .ok (.getByLabel (d.label.getD ""))
  else if truthy d.altText then .ok (.getByAltText (d.altText.getD ""))
  else if truthy d.title then .ok (.getByTitle (d.title.getD ""))
  else if truthy d.frame then .ok (.frameLocator (d.frame.getD ""))
  else if truthy d.locator then .ok (.locator (d.locator.getD ""))
  else .error "Invalid element definition"

/-- The discriminating fields of a descriptor, named as in the spec
(rawSelector is the source's locator field). -/
inductive FieldTag where
  | role | testId | text | placeholder | label | altText | title | frame
  | rawSelector
deriving DecidableEq, Repr

/-- Modelled from the spec: the fixed precedence list of recognized
descriptor fields. -/
def precedenceList : List FieldTag :=
  [.role, .testId, .text, .placeholder, .label, .altText, .title, .frame,
   .rawSelector]

/-- The descriptor field selected by a tag. -/
def fieldOf (d : ElementDefinition) : FieldTag → Option String
  | .role => d.role
  | .testId => d.testId
  | .text => d.text
  | .placeholder => d.placeholder
  | .label => d.label
  | .altText => d.altText
  | .title => d.title
  | .frame => d.frame
  | .rawSelector => d.locator

/-- The locator built when dispatching on a given recognized field. -/
def dispatchOn (d : ElementDefinition) : FieldTag → Locator
  | .role => .getByRole (d.role.getD "") (if truthy d.name then d.name else none)
  | .testId => .getByTestId (d.testId.getD "")
  | .text => .getByText (d.text.getD "")
  | .placeholder => .getByPlaceholder (d.placeholder.getD "")
  | .label => .getByLabel (d.label.getD "")
  | .altText => .getByAltText (d.altText.getD "")
  | .title => .getByTitle (d.title.getD "")
  | .frame => .frameLocator (d.frame.getD "")
  | .rawSelector => .locator (d.locator.getD "")

/-- Modelled from the spec's words: dispatch on the first recognized
field that is set in the fixed precedence list; fail when none is. -/
def createLocatorSpec (d : ElementDefinition) : Except String Locator :=
  match precedenceList.find? (fun t => truthy (fieldOf d t)) with
  | some t => .ok (dispatchOn d t)
  | none => .error "Invalid element definition"

/-! ### Page registry builders (Support/pageRegistry.js and the
consolidated PageFactory._buildRegistry) -/

/-- The inclusion test of the directory scan: name ends with Page.js and
is not the base page module. -/
def includeFile (file : String) : Bool :=
  jsEndsWith file "Page.js" && !(file == "BasePage.js")

/-- The registry key derived from a file name: remove the first
occurrence of Page.js, then lowercase. -/
def pageKeyOf (file : String) : String :=
  jsToLower (jsReplaceFirst file "Page.js")

/-- Support/pageRegistry.js: one assignment per included file, keyed by
pageKeyOf, whose value is the module's first export (undefined when the
module has no exports); no export-name check is performed.  A module's
exports are modelled as an association list in key insertion order. -/
def buildRegistryEntries {V : Type}
    (files : List (String × List (String × V))) : List (String × Option V) :=
  (files.filter (fun f => includeFile f.fst)).map
    (fun f => (pageKeyOf f.fst, f.snd.head?.map Prod.snd))

/-- The MissingExport message of the consolidated builder. -/
def mustExportMsg (file className : String) : String :=
  file ++ " must export \x7b " ++ className ++ " \x7d"

/-- PageFactory._buildRegistry from the consolidated PageFactory.js: like
the standalone builder, but the expected class name is the file name with
its first .js occurrence removed, and a module whose expected export is
absent (falsy) aborts the build with an error naming the file and the
expected export.  Exported class values are always truthy, so absence of
the key models the falsiness test. -/
def buildRegistryChecked {V : Type} :
    List (String × List (String × V)) → Except String (List (String × V))
  | [] => .ok []
  | (file, exported) :: rest =>
    if includeFile file then
      let className := jsReplaceFirst file ".js"
      match jsLookup exported className with
      | none => .error (mustExportMsg file className)
      | some v =>
        (buildRegistryChecked rest).map (fun r => (pageKeyOf file, v) :: r)
    else
      buildRegistryChecked rest

/-! ### Page factory cache (Support/PageFactory.js get) -/

/-- A constructed page instance: the class it was built from and a fresh
numeric id standing for its object reference. -/
structure PageInstance where
  cls : String
  id : Nat
deriving DecidableEq, Repr

/-- The mutable state of one PageFactory: its cache and the fresh-id
counter modelling object allocation. -/
structure FactoryState where
  cache : List (String × PageInstance)
  nextId : Nat
deriving DecidableEq, Repr

/-- PageFactory.get: return the cached instance when present; otherwise
look the class up in the registry (throw Unknown page when absent),
construct a fresh instance, cache it, and return it.  The registry maps
page keys to class names. -/
def factoryGet (registry : List (String × String)) (pageKey : String)
    (s : FactoryState) : Except String (PageInstance × FactoryState) :=
  match jsLookup s.cache pageKey with
  | some inst => .ok (inst, s)
  | none =>
    match jsLookup registry pageKey with
    | none => .error ("Unknown page: " ++ pageKey)
    | some cls =>
      let inst : PageInstance := ⟨cls, s.nextId⟩
      .ok (inst, ⟨s.cache ++ [(pageKey, inst)], s.nextId + 1⟩)

/-! ### Element name resolver and config value resolver
(Support/elementRegistry.js) -/

/-- The UnknownElementLabel message, naming the label and where to add
it. -/
def unknownElementMsg (elementName : String) : String :=
  "Element \"" ++ elementName ++ "\" not found in elementMaps. Add \"" ++
    elementName ++ "\" to the correct element category in elementMaps.js"

/-- resolveElement from Support/elementRegistry.js: look the label up in
the category map (resolver functions are truthy, so absence models the
falsiness test) and apply the resolver to the context. -/
def resolveElement {Ctx Loc : Type} (elementCategory : List (String × (Ctx → Loc)))
    (elementName : String) (context : Ctx) : Except String Loc :=
  match jsLookup elementCategory elementName with
  | none => .error (unknownElementMsg elementName)
  | some resolver => .ok (resolver context)

/-- The configuration object of .env.config.js: three environment
variables, each possibly undefined. -/
structure EnvConfig where
  BASEURL : Option String
  APP_USERNAME : Option String
  APP_PASSWORD : Option String
deriving DecidableEq, Repr

/-- JavaScript own-property access on the configuration object. -/
def envLookup (cfg : EnvConfig) (key : String) : Option String :=
  if key == "BASEURL" then cfg.BASEURL
  else if key == "APP_USERNAME" then cfg.APP_USERNAME
  else if key == "APP_PASSWORD" then cfg.APP_PASSWORD
  else none

/-- resolveValue from Support/elementRegistry.js: substitute the
configured value when it is truthy, otherwise return the token
unchanged. -/
def resolveValue (cfg : EnvConfig) (value : String) : String :=
  match envLookup cfg value with
  | some s => if s == "" then value else s
  | none => value

/-! ### Startup catalog validation (validateRegistry in the consolidated
Support/elementRegistry.js) -/

/-- The code's notion of a registered catalog key: the string
active.<key> occurs as a substring of the source text of some resolver in
some category. -/
def isRegistered (categories : List (List String)) (elementProperty : String) : Bool :=
  categories.any (fun category =>
    category.any (fun resolverStr =>
      jsIncludes resolverStr ("active." ++ elementProperty)))

/-- The scan of validateRegistry: for each .elements.js file, every
property not registered in any category, paired with its file, in scan
order.  Files are given as (name, property list) pairs; module loading is
abstracted to the property lists. -/
def collectUnregistered (files : List (String × List String))
    (categories : List (List String)) : List (String × String) :=
  ((files.filter (fun f => jsEndsWith f.fst ".elements.js")).map
    (fun f => (f.snd.filter (fun p => !(isRegistered categories p))).map
      (fun p => (f.fst, p)))).flatten

/-- The fatal validation report, joined with newlines, one line naming
each unregistered property and its file. -/
def validationFailedMsg (unregistered : List (String × String)) : String :=
  jsJoin "\n"
    (["\nELEMENT REGISTRY VALIDATION FAILED",
      "\nFound " ++ toString unregistered.length ++ " unregistered element(s):\n"] ++
     unregistered.map (fun fp => "  " ++ fp.snd ++ " (in " ++ fp.fst ++ ")") ++
     ["\nFix: Add these elements to Support/elementRegistry.js in the appropriate category.\n"])

/-- validateRegistry: throw the report when any unregistered element was
found, succeed otherwise. -/
def validateRegistry (files : List (String × List String))
    (categories : List (List String)) : Except String Unit :=
  if collectUnregistered files categories = [] then .ok ()
  else .error (validationFailedMsg (collectUnregistered files categories))

/-- The source text of a category resolver, as produced by
Function.prototype.toString on the arrow functions of
Support/elementRegistry.js. -/
def resolverSrc (p : String) : String :=
  "(\x7b active \x7d) => active." ++ p

/-- The page-object properties accessed, one each, by the resolvers of
ELEMENT_CATEGORIES in Support/elementRegistry.js. -/
def repoResolverProps : List String :=
  ["usernameInput", "passwordInput", "userTypeDropdown", "loginButton",
   "okayButton", "cancelButton", "termsCheckbox", "adminRadio", "userRadio",
   "blinkingTextLink", "modal", "errorEmptyCredentials"]

/-- ELEMENT_CATEGORIES of Support/elementRegistry.js as resolver source
texts: field, dropdown, button, checkbox, radio, link, modal, error. -/
def repoCategories : List (List String) :=
  [[resolverSrc "usernameInput", resolverSrc "passwordInput"],
   [resolverSrc "userTypeDropdown"],
   [resolverSrc "loginButton", resolverSrc "okayButton", resolverSrc "cancelButton"],
   [resolverSrc "termsCheckbox"],
   [resolverSrc "adminRadio", resolverSrc "userRadio"],
   [resolverSrc "blinkingTextLink"],
   [resolverSrc "modal"],
   [resolverSrc "errorEmptyCredentials"]]

/-! ### Helper lemmas -/

theorem findActive_eq_none {l : List (String × PageObj)}
    (h : ∀ x ∈ l, x.snd.isAt ≠ some true) : findActive l = none := by
  induction l with
  | nil => rfl
  | cons x rest ih =>
    obtain ⟨k, po⟩ := x
    simp only [findActive]
    rw [if_neg (h (k, po) (List.mem_cons_self _ _))]
    exact ih fun y hy => h y (List.mem_cons_of_mem _ hy)

theorem findActive_append {l1 l2 : List (String × PageObj)} {k : String}
    {po : PageObj} (h1 : ∀ x ∈ l1, x.snd.isAt ≠ some true)
    (hpo : po.isAt = some true) :
    findActive (l1 ++ (k, po) :: l2) = some po := by
  induction l1 with
  | nil => simp [findActive, hpo]
  | cons x rest ih =>
    obtain ⟨k', po'⟩ := x
    simp only [List.cons_append, findActive]
    rw [if_neg (h1 (k', po') (List.mem_cons_self _ _))]
    exact ih fun y hy => h1 y (List.mem_cons_of_mem _ hy)

theorem jsLookup_append_self {α : Type} {c : List (String × α)} {k : String}
    (v : α) (h : jsLookup c k = none) :
    jsLookup (c ++ [(k, v)]) k = some v := by
  induction c with
  | nil => simp [jsLookup]
  | cons x rest ih =>
    obtain ⟨k', v'⟩ := x
    by_cases hk : k' = k
    · exfalso
      rw [jsLookup, if_pos hk] at h
      exact Option.noConfusion h
    · rw [jsLookup, if_neg hk] at h
      rw [List.cons_append, jsLookup, if_neg hk]
      exact ih h

theorem jsIncludes_of_infix {s sub : String} (h : sub.data <:+: s.data) :
    jsIncludes s sub = true := by
  unfold jsIncludes containsAux
  rw [List.any_eq_true]
  obtain ⟨t, hpre, hsuf⟩ := List.infix_iff_prefix_suffix.mp h
  exact ⟨t, (List.mem_tails _ _).mpr hsuf, List.isPrefixOf_iff_prefix.mpr hpre⟩

theorem mem_infix_jsJoin {x : String} {xs : List String} (sep : String)
    (h : x ∈ xs) : x.data <:+: (jsJoin sep xs).data := by
  induction xs with
  | nil => cases h
  | cons y rest ih =>
    cases rest with
    | nil =>
      rw [List.mem_singleton.mp h]
      exact List.infix_refl _
    | cons z rest2 =>
      rcases List.mem_cons.mp h with h | h
      · subst h
        show x.data <:+: (x ++ sep ++ jsJoin sep (z :: rest2)).data
        simp only [String.data_append, List.append_assoc]
        exact (List.prefix_append _ _).isInfix
      · have hrec := ih h
        show x.data <:+: (y ++ sep ++ jsJoin sep (z :: rest2)).data
        simp only [String.data_append, List.append_assoc]
        exact hrec.trans ((List.suffix_append _ _).isInfix.trans
          (List.suffix_append _ _).isInfix)

/-! ### C1, C2: resolveActivePage -/

/-- C1: resolveActivePage iterates the page objects in insertion order,
skipping objects with no isAt predicate and objects whose predicate is
false, and returns the first page object whose predicate is true; in
particular, over a map in which exactly one predicate is true it returns
that object regardless of its position, for every options value. -/
theorem c1_resolveActivePage_first_true (l1 l2 : List (String × PageObj))
    (k : String) (po : PageObj) (opts : ResolveOptions)
    (h1 : ∀ x ∈ l1, x.snd.isAt ≠ some true) (hpo : po.isAt = some true) :
    resolveActivePage (l1 ++ (k, po) :: l2) opts = .ok (.page po) := by
  unfold resolveActivePage
  rw [findActive_append h1 hpo]

/-- Witness for C1: the matching page sits in the middle of the registry,
behind an object with no isAt method and one whose predicate is false, and
is still the one returned. -/
theorem c1_witness :
    resolveActivePage
      [("home", ⟨0, none⟩), ("login", ⟨1, some false⟩),
       ("shop", ⟨2, some true⟩), ("cart", ⟨3, some true⟩)]
      ⟨false, true⟩ = .ok (.page ⟨2, some true⟩) :=
  c1_resolveActivePage_first_true
    [("home", ⟨0, none⟩), ("login", ⟨1, some false⟩)]
    [("cart", ⟨3, some true⟩)] "shop" ⟨2, some true⟩ ⟨false, true⟩
    (by decide) (by decide)

/-- C2 counterexample: over the empty map of page objects no predicate is
true and fallbackToFirst holds, yet resolveActivePage yields undefined
rather than a page object: there is no first page object to return, so
the claim's fallback clause fails on the empty map. -/
theorem c2_counterexample :
    resolveActivePage [] ⟨false, true⟩ = .ok .undef ∧
    ResolveResult.isPage .undef = false ∧
    ResolveResult.undef ≠ ResolveResult.nullv :=
  ⟨rfl, rfl, by decide⟩

/-- C2 (amended): for every map of page objects in which no isAt
predicate is true, resolveActivePage throws the NoActivePage error
listing all candidate keys when throwOnNotFound is true; otherwise, when
fallbackToFirst is true, it returns the first page object if the map is
nonempty and yields undefined on the empty map; and when both flags are
false it returns null. -/
theorem c2_resolveActivePage_no_match (pos : List (String × PageObj))
    (opts : ResolveOptions) (h : ∀ x ∈ pos, x.snd.isAt ≠ some true) :
    (opts.throwOnNotFound = true →
      resolveActivePage pos opts =
        .error (noActivePageMsg (pos.map Prod.fst))) ∧
    (opts.throwOnNotFound = false → opts.fallbackToFirst = true →
      (∀ kp l, pos = kp :: l →
        resolveActivePage pos opts = .ok (.page kp.snd)) ∧
      (pos = [] → resolveActivePage pos opts = .ok .undef)) ∧
    (opts.throwOnNotFound = false → opts.fallbackToFirst = false →
      resolveActivePage pos opts = .ok .nullv) := by
  unfold resolveActivePage
  rw [findActive_eq_none h]
  refine ⟨fun ht => by rw [if_pos ht], fun ht hf => ⟨?_, ?_⟩, fun ht hf => ?_⟩
  · intro kp l hpos
    rw [if_neg (by simp [ht]), if_pos hf, hpos]
    rfl
  · intro hpos
    rw [if_neg (by simp [ht]), if_pos hf, hpos]
    rfl
  · rw [if_neg (by simp [ht]), if_neg (by simp [hf])]

/-- Witness for C2 at a one-page registry whose predicate is false: the
throwing, falling-back and null-returning branches all behave as
stated. -/
theorem c2_witness :
    resolveActivePage [("login", ⟨0, some false⟩)] ⟨true, true⟩ =
      .error (noActivePageMsg ["login"]) ∧
    resolveActivePage [("login", ⟨0, some false⟩)] ⟨false, true⟩ =
      .ok (.page ⟨0, some false⟩) ∧
    resolveActivePage [("login", ⟨0, some false⟩)] ⟨false, false⟩ =
      .ok .nullv := by
  refine ⟨?_, ?_, ?_⟩
  · exact (c2_resolveActivePage_no_match [("login", ⟨0, some false⟩)]
      ⟨true, true⟩ (by decide)).1 rfl
  · exact ((c2_resolveActivePage_no_match [("login", ⟨0, some false⟩)]
      ⟨false, true⟩ (by decide)).2.1 rfl rfl).1 ("login", ⟨0, some false⟩) [] rfl
  · exact (c2_resolveActivePage_no_match [("login", ⟨0, some false⟩)]
      ⟨false, false⟩ (by decide)).2.2 rfl rfl

/-! ### C3: URL-matching predicate -/

/-- C3: isAt normalizes both URLs by stripping a single trailing slash
and lowercasing and returns true exactly when the normalized URLs are
equal or the normalized current URL extends the normalized page URL; a
page with no configured URL (null or empty) never matches; and the
spec's concrete instance holds: configured URL https://x.test/shop/
matches current URL https://x.test/SHOP. -/
theorem c3_isAt_predicate (u currentUrl : String) (hu : u ≠ "") :
    isAt none currentUrl = false ∧
    isAt (some "") currentUrl = false ∧
    (isAt (some u) currentUrl = true ↔
      normalize currentUrl = normalize u ∨
      ∃ t, (normalize currentUrl).data = (normalize u).data ++ t) ∧
    isAt (some "https://x.test/shop/") "https://x.test/SHOP" = true := by
  refine ⟨rfl, rfl, ?_, by decide⟩
  have htr : truthy (some u) = true := by
    simp [truthy, hu]
  rw [isAt, htr]
  simp only [Bool.not_true, Bool.false_eq_true, if_false, Option.getD_some,
    Bool.or_eq_true, beq_iff_eq, jsStartsWith, List.isPrefixOf_iff_prefix]
  constructor
  · rintro (h | ⟨t, ht⟩)
    · exact Or.inl h
    · exact Or.inr ⟨t, ht.symm⟩
  · rintro (h | ⟨t, ht⟩)
    · exact Or.inl h
    · exact Or.inr ⟨t, ht.symm⟩

/-- Witness for C3: the predicate's characterization instantiated at the
spec's concrete pair of URLs. -/
theorem c3_witness :
    isAt (some "https://x.test/shop/") "https://x.test/SHOP" = true :=
  (c3_isAt_predicate "https://x.test/shop/" "https://x.test/SHOP"
    (by decide)).2.2.2

/-! ### C4: locator builder precedence -/

/-- C4: for every element definition, createLocator agrees with the
spec-level dispatcher that scans the fixed precedence list role, testId,
text, placeholder, label, altText, title, frame, rawSelector and
dispatches on the first field set, failing with the invalid-definition
error when none is set. -/
theorem c4_createLocator_precedence (d : ElementDefinition) :
    createLocator d = createLocatorSpec d := by
  unfold createLocator createLocatorSpec precedenceList
  cases hr : truthy d.role <;> cases ht : truthy d.testId <;>
    cases htx : truthy d.text <;> cases hp : truthy d.placeholder <;>
    cases hl : truthy d.label <;> cases ha : truthy d.altText <;>
    cases hti : truthy d.title <;> cases hf : truthy d.frame <;>
    cases hloc : truthy d.locator <;>
    simp [List.find?, fieldOf, dispatchOn, hr, ht, htx, hp, hl, ha, hti,
      hf, hloc]

/-! ### C5, C6: page registry construction -/

theorem replaceFirstAux_append {pat n : List Char} (hpat : pat ≠ [])
    (h : ∀ i, i < n.length → ¬ pat.isPrefixOf ((n ++ pat).drop i) = true) :
    replaceFirstAux pat (n ++ pat) = n := by
  induction n with
  | nil =>
    cases pat with
    | nil => exact absurd rfl hpat
    | cons c cs =>
      show replaceFirstAux (c :: cs) (c :: cs) = []
      rw [replaceFirstAux,
        if_pos (List.isPrefixOf_iff_prefix.mpr (List.prefix_refl _))]
      exact List.drop_length _
  | cons c n2 ih =>
    rw [List.cons_append, replaceFirstAux]
    have h0 : ¬ pat.isPrefixOf (c :: (n2 ++ pat)) = true := by
      have := h 0 (by simp)
      simpa using this
    rw [if_neg h0]
    have h2 : ∀ i, i < n2.length →
        ¬ pat.isPrefixOf ((n2 ++ pat).drop i) = true := by
      intro i hi
      have := h (i + 1) (by simp only [List.length_cons]; omega)
      rwa [List.cons_append, List.drop_succ_cons] at this
    rw [ih h2]

/-- C5 counterexample: the file Page.jsAPage.js matches the inclusion
pattern with class-name prefix Page.jsA, but the registry key is computed
by removing the first occurrence of Page.js, which here is not the
trailing suffix, so the key differs from the lowercased class-name
prefix. -/
theorem c5_counterexample :
    ("Page.jsA" ++ "Page.js" : String) = "Page.jsAPage.js" ∧
    includeFile "Page.jsAPage.js" = true ∧
    pageKeyOf "Page.jsAPage.js" ≠ jsToLower "Page.jsA" :=
  ⟨rfl, by decide, by decide⟩

/-- C5 (amended): a file is included iff its name ends in Page.js and is
not BasePage.js, and for every included file <Name>Page.js in which
Page.js occurs only as the trailing suffix, the registry key equals the
lowercased class-name prefix <Name>; when Page.js also occurs earlier in
the name, the key is the lowercase of the name with its first Page.js
occurrence removed instead. -/
theorem c5_registry_key (n : List Char)
    (h : ∀ i, i < n.length →
      ¬ ("Page.js".data.isPrefixOf ((n ++ "Page.js".data).drop i)) = true) :
    (includeFile (String.mk (n ++ "Page.js".data)) = true ↔
      n ≠ "Base".data) ∧
    pageKeyOf (String.mk (n ++ "Page.js".data)) = jsToLower (String.mk n) := by
  constructor
  · have hsuf : jsEndsWith (String.mk (n ++ "Page.js".data)) "Page.js" = true :=
      List.isSuffixOf_iff_suffix.mpr ⟨n, rfl⟩
    rw [includeFile, hsuf, Bool.true_and, Bool.not_eq_true', beq_eq_false_iff_ne]
    constructor
    · intro hne heq
      exact hne (by rw [heq]; rfl)
    · intro hne heq
      apply hne
      have : n ++ "Page.js".data = "Base".data ++ "Page.js".data := by
        have := congrArg String.data heq
        simpa using this
      exact List.append_cancel_right this
  · rw [pageKeyOf, jsReplaceFirst]
    have : replaceFirstAux "Page.js".data (String.mk (n ++ "Page.js".data)).data = n :=
      replaceFirstAux_append (by decide) h
    rw [this]

/-- Witness for C5: the well-behaved file LoginPage.js is included and
registered under key login, the lowercased class-name prefix. -/
theorem c5_witness :
    (includeFile "LoginPage.js" = true ↔ "Login".data ≠ "Base".data) ∧
    pageKeyOf "LoginPage.js" = jsToLower "Login" :=
  c5_registry_key "Login".data (by decide)

/-- C6 counterexample: the standalone registry builder of
Support/pageRegistry.js performs no export check: an included module
whose only export has the wrong name is neither rejected nor skipped; it
is silently registered under the page key with that first export's
value. -/
theorem c6_counterexample :
    buildRegistryEntries [("LoginPage.js", [("WrongName", 7)])] =
      [("login", some 7)] ∧
    ("WrongName" : String) ≠ "LoginPage" :=
  ⟨rfl, by decide⟩

/-- C6 (amended): the consolidated PageFactory._buildRegistry enforces
the export convention: when the first included module whose expected
export is absent is reached (all earlier included modules being
well-formed), the build aborts with an error whose message names the file
and the expected export; the standalone pageRegistry.js builder performs
no such check. -/
theorem c6_checked_missing_export {V : Type}
    (pre : List (String × List (String × V))) (file : String)
    (exported : List (String × V)) (rest : List (String × List (String × V)))
    (hpre : ∀ fe ∈ pre, includeFile fe.fst = true →
      jsLookup fe.snd (jsReplaceFirst fe.fst ".js") ≠ none)
    (hinc : includeFile file = true)
    (habs : jsLookup exported (jsReplaceFirst file ".js") = none) :
    buildRegistryChecked (pre ++ (file, exported) :: rest) =
      .error (mustExportMsg file (jsReplaceFirst file ".js")) ∧
    jsIncludes (mustExportMsg file (jsReplaceFirst file ".js")) file = true ∧
    jsIncludes (mustExportMsg file (jsReplaceFirst file ".js"))
      (jsReplaceFirst file ".js") = true := by
  refine ⟨?_, ?_, ?_⟩
  · induction pre with
    | nil =>
      rw [List.nil_append]
      simp only [buildRegistryChecked, hinc, if_true, habs]
    | cons fe pre2 ih =>
      obtain ⟨f0, ex0⟩ := fe
      have ihh := ih fun y hy => hpre y (List.mem_cons_of_mem _ hy)
      rw [List.cons_append]
      cases hi : includeFile f0 with
      | false => simp [buildRegistryChecked, hi, ihh]
      | true =>
        have hlk := hpre (f0, ex0) (List.mem_cons_self _ _) hi
        cases hv : jsLookup ex0 (jsReplaceFirst f0 ".js") with
        | none => exact absurd hv hlk
        | some v => simp [buildRegistryChecked, hi, hv, ihh, Except.map]
  · apply jsIncludes_of_infix
    rw [mustExportMsg]
    simp only [String.data_append, List.append_assoc]
    exact (List.prefix_append _ _).isInfix
  · apply jsIncludes_of_infix
    rw [mustExportMsg]
    simp only [String.data_append]
    rw [List.append_assoc (file.data ++ " must export \x7b ".data)]
    exact ((List.prefix_append _ _).isInfix).trans
      (List.suffix_append _ _).isInfix

/-- Witness for C6: a single included module exporting only a wrong name
aborts the checked build with the message naming ShopPage.js and the
expected export ShopPage. -/
theorem c6_witness :
    buildRegistryChecked [("ShopPage.js", [("Oops", (1 : Nat))])] =
      .error "ShopPage.js must export \x7b ShopPage \x7d" ∧
    jsIncludes "ShopPage.js must export \x7b ShopPage \x7d" "ShopPage.js" = true := by
  have h := c6_checked_missing_export (V := Nat) [] "ShopPage.js"
    [("Oops", 1)] [] (fun fe hfe => absurd hfe (List.not_mem_nil _))
    (by decide) (by decide)
  exact ⟨h.1, h.2.1⟩

/-! ### C7: page factory caching -/

/-- C7: for every key present in the registry and every factory state,
the first get constructs or finds an instance, and a second get from the
resulting state returns the very same instance (same identity tag, so
the same object reference) and leaves the state unchanged. -/
theorem c7_factoryGet_identity (registry : List (String × String))
    (k : String) (s : FactoryState) (h : jsLookup registry k ≠ none) :
    ∃ inst s2, factoryGet registry k s = .ok (inst, s2) ∧
      factoryGet registry k s2 = .ok (inst, s2) := by
  cases hc : jsLookup s.cache k with
  | some inst =>
    exact ⟨inst, s, by simp [factoryGet, hc], by simp [factoryGet, hc]⟩
  | none =>
    cases hr : jsLookup registry k with
    | none => exact absurd hr h
    | some cls =>
      refine ⟨⟨cls, s.nextId⟩,
        ⟨s.cache ++ [(k, ⟨cls, s.nextId⟩)], s.nextId + 1⟩, ?_, ?_⟩
      · simp [factoryGet, hc, hr]
      · have hfound : jsLookup
            (s.cache ++ [(k, (⟨cls, s.nextId⟩ : PageInstance))]) k =
            some ⟨cls, s.nextId⟩ := jsLookup_append_self _ hc
        simp [factoryGet, hfound]

/-- Witness for C7: a fresh factory over a one-page registry; the second
get returns the instance constructed and cached by the first and does not
change the state. -/
theorem c7_witness :
    factoryGet [("login", "LoginPage")] "login"
      ⟨[("login", ⟨"LoginPage", 0⟩)], 1⟩ =
      .ok (⟨"LoginPage", 0⟩, ⟨[("login", ⟨"LoginPage", 0⟩)], 1⟩) := by
  obtain ⟨inst, s2, h1, h2⟩ := c7_factoryGet_identity
    [("login", "LoginPage")] "login" ⟨[], 0⟩ (by decide)
  have hconc : factoryGet [("login", "LoginPage")] "login" ⟨[], 0⟩ =
      .ok ((⟨"LoginPage", 0⟩ : PageInstance),
        (⟨[("login", ⟨"LoginPage", 0⟩)], 1⟩ : FactoryState)) := rfl
  rw [h1] at hconc
  injection hconc with hpair
  injection hpair with hinst hstate
  rw [hinst, hstate] at h2
  exact h2

/-! ### C9, C10: element name resolver and config value resolver -/

/-- C9: resolveElement looks the label up in the category map; when the
label is absent it fails with the UnknownElementLabel error, whose
message contains the label (and names where to add it); when the label is
present it returns the resolver applied to the context, never a silent
undefined. -/
theorem c9_resolveElement_lookup {Ctx Loc : Type}
    (cat : List (String × (Ctx → Loc))) (elementName : String)
    (context : Ctx) :
    (jsLookup cat elementName = none →
      resolveElement cat elementName context =
        .error (unknownElementMsg elementName) ∧
      jsIncludes (unknownElementMsg elementName) elementName = true) ∧
    (∀ r, jsLookup cat elementName = some r →
      resolveElement cat elementName context = .ok (r context)) := by
  constructor
  · intro h
    refine ⟨by simp [resolveElement, h], ?_⟩
    apply jsIncludes_of_infix
    rw [unknownElementMsg]
    simp only [String.data_append, List.append_assoc]
    exact ((List.prefix_append _ _).isInfix).trans
      (List.suffix_append _ _).isInfix
  · intro r h
    simp [resolveElement, h]

/-- Witness for C9: a one-entry button category; an unregistered label
fails with the message containing that label, and a registered one
resolves through its resolver. -/
theorem c9_witness :
    resolveElement [("Sign In", fun ctx : Nat => ctx + 1)] "Nope" 0 =
      .error (unknownElementMsg "Nope") ∧
    jsIncludes (unknownElementMsg "Nope") "Nope" = true ∧
    resolveElement [("Sign In", fun ctx : Nat => ctx + 1)] "Sign In" 0 =
      .ok 1 := by
  have h1 := (c9_resolveElement_lookup
    [("Sign In", fun ctx : Nat => ctx + 1)] "Nope" 0).1 rfl
  have h2 := (c9_resolveElement_lookup
    [("Sign In", fun ctx : Nat => ctx + 1)] "Sign In" 0).2
    (fun ctx : Nat => ctx + 1) rfl
  exact ⟨h1.1, h1.2, h2⟩

/-- C10 counterexample: with BASEURL configured to the empty string, the
token BASEURL is a recognized configuration name, yet resolveValue
returns the token itself rather than the configured value, because the
code branches on the truthiness of the configured value, not on name
recognition. -/
theorem c10_counterexample :
    (EnvConfig.mk (some "") (some "user1") (some "pass1")).BASEURL =
      some "" ∧
    resolveValue (EnvConfig.mk (some "") (some "user1") (some "pass1"))
      "BASEURL" = "BASEURL" ∧
    ("BASEURL" : String) ≠ "" :=
  ⟨rfl, rfl, by decide⟩

/-- C10 (amended): resolveValue returns the configured value when the
token is a recognized configuration name and that value is present and
non-empty (truthy); otherwise — recognized token with absent or empty
value, or unrecognized token — it returns the token unchanged. -/
theorem c10_resolveValue_truthy (cfg : EnvConfig) (token s : String) :
    (envLookup cfg token = some s → s ≠ "" →
      resolveValue cfg token = s) ∧
    (envLookup cfg token = some s → s = "" →
      resolveValue cfg token = token) ∧
    (envLookup cfg token = none → resolveValue cfg token = token) ∧
    (token ≠ "BASEURL" → token ≠ "APP_USERNAME" → token ≠ "APP_PASSWORD" →
      resolveValue cfg token = token) := by
  refine ⟨?_, ?_, ?_, ?_⟩
  · intro h hs
    simp [resolveValue, h, hs]
  · intro h hs
    simp [resolveValue, h, hs]
  · intro h
    simp [resolveValue, h]
  · intro h1 h2 h3
    have hn : envLookup cfg token = none := by
      simp [envLookup, h1, h2, h3]
    simp [resolveValue, hn]

/-- Witness for C10: a truthy BASEURL is substituted; an unrecognized
token is returned unchanged. -/
theorem c10_witness :
    resolveValue ⟨some "https://x.test", some "u", some "p"⟩ "BASEURL" =
      "https://x.test" ∧
    resolveValue ⟨some "https://x.test", some "u", some "p"⟩ "hello" =
      "hello" := by
  have h1 := (c10_resolveValue_truthy
    ⟨some "https://x.test", some "u", some "p"⟩ "BASEURL"
    "https://x.test").1 rfl (by decide)
  have h2 := (c10_resolveValue_truthy
    ⟨some "https://x.test", some "u", some "p"⟩ "hello" "x").2.2.2
    (by decide) (by decide) (by decide)
  exact ⟨h1, h2⟩

/-! ### C8: startup catalog validation -/

theorem mem_collectUnregistered {files : List (String × List String)}
    {cats : List (List String)} {f p : String} :
    (f, p) ∈ collectUnregistered files cats ↔
      ∃ props, (f, props) ∈ files ∧ jsEndsWith f ".elements.js" = true ∧
        p ∈ props ∧ isRegistered cats p = false := by
  unfold collectUnregistered
  rw [List.mem_flatten]
  constructor
  · rintro ⟨l, hl, hx⟩
    rw [List.mem_map] at hl
    obtain ⟨fe, hfe, rfl⟩ := hl
    obtain ⟨f1, props1⟩ := fe
    rw [List.mem_filter] at hfe
    rw [List.mem_map] at hx
    obtain ⟨p2, hp2, heq⟩ := hx
    rw [List.mem_filter] at hp2
    injection heq with h1 h2
    subst h1
    subst h2
    exact ⟨props1, hfe.1, hfe.2, hp2.1, by simpa using hp2.2⟩
  · rintro ⟨props, hf, hext, hp, hreg⟩
    refine ⟨(props.filter (fun p2 => !(isRegistered cats p2))).map
      (fun p2 => (f, p2)), ?_, ?_⟩
    · rw [List.mem_map]
      refine ⟨(f, props), ?_, rfl⟩
      rw [List.mem_filter]
      exact ⟨hf, hext⟩
    · rw [List.mem_map]
      refine ⟨p, ?_, rfl⟩
      rw [List.mem_filter]
      exact ⟨hp, by simp [hreg]⟩

/-- C8 counterexample: the key user is present in login.elements.js and
is accessed by no category resolver (the resolvers access exactly the
properties of repoResolverProps, and user is not among them), yet
validation succeeds, because the code tests whether active.user occurs as
a substring of a resolver's source and active.user is a prefix of
active.usernameInput. -/
theorem c8_counterexample :
    repoCategories.flatten = repoResolverProps.map resolverSrc ∧
    "user" ∉ repoResolverProps ∧
    validateRegistry [("login.elements.js", ["user"])] repoCategories =
      .ok () :=
  ⟨rfl, by decide, rfl⟩

/-- C8 (amended): validateRegistry treats a key as registered when the
string active.<key> occurs as a substring of some resolver's source text
(so a key that is a prefix of a referenced property passes even when no
resolver references the key itself).  For every key of a .elements.js
file for which no resolver source contains that substring, validation
throws an error whose message names that exact key and its file; when
every key of every such file has the substring in some resolver source,
validation succeeds. -/
theorem c8_validateRegistry_report (files : List (String × List String))
    (cats : List (List String)) :
    (∀ f props p, (f, props) ∈ files → p ∈ props →
      jsEndsWith f ".elements.js" = true →
      (∀ cat ∈ cats, ∀ r ∈ cat, jsIncludes r ("active." ++ p) = false) →
      ∃ msg, validateRegistry files cats = .error msg ∧
        jsIncludes msg ("  " ++ p ++ " (in " ++ f ++ ")") = true) ∧
    ((∀ f props, (f, props) ∈ files → jsEndsWith f ".elements.js" = true →
        ∀ p ∈ props, isRegistered cats p = true) →
      validateRegistry files cats = .ok ()) := by
  constructor
  · intro f props p hf hp hext hnone
    have hreg : isRegistered cats p = false := by
      rw [isRegistered, Bool.eq_false_iff]
      intro hany
      rw [List.any_eq_true] at hany
      obtain ⟨cat, hcat, hc⟩ := hany
      rw [List.any_eq_true] at hc
      obtain ⟨r, hr, hrr⟩ := hc
      rw [hnone cat hcat r hr] at hrr
      exact Bool.false_ne_true hrr
    have hmem : (f, p) ∈ collectUnregistered files cats :=
      mem_collectUnregistered.mpr ⟨props, hf, hext, hp, hreg⟩
    have hne : collectUnregistered files cats ≠ [] :=
      List.ne_nil_of_mem hmem
    refine ⟨validationFailedMsg (collectUnregistered files cats), ?_, ?_⟩
    · rw [validateRegistry, if_neg hne]
    · have hline : ("  " ++ p ++ " (in " ++ f ++ ")") ∈
          (collectUnregistered files cats).map
            (fun fp => "  " ++ fp.snd ++ " (in " ++ fp.fst ++ ")") :=
        List.mem_map_of_mem _ hmem
      apply jsIncludes_of_infix
      apply mem_infix_jsJoin
      rw [List.append_assoc]
      exact List.mem_append_right _ (List.mem_append_left _ hline)
  · intro hall
    have hnil : collectUnregistered files cats = [] := by
      rw [List.eq_nil_iff_forall_not_mem]
      rintro ⟨f, p⟩ hmem
      obtain ⟨props, hf, hext, hp, hreg⟩ :=
        mem_collectUnregistered.mp hmem
      rw [hall f props hf hext p hp] at hreg
      exact Bool.noConfusion hreg
    rw [validateRegistry, if_pos hnil]

/-- Witness for C8: a file with the key zzz, matched by no resolver
source, makes validation fail with a message naming zzz and the file. -/
theorem c8_witness :
    ∃ msg, validateRegistry [("a.elements.js", ["zzz"])] repoCategories =
        .error msg ∧
      jsIncludes msg "  zzz (in a.elements.js)" = true :=
  (c8_validateRegistry_report [("a.elements.js", ["zzz"])]
    repoCategories).1 "a.elements.js" ["zzz"] "zzz" (by decide) (by decide)
    (by decide) (by decide)

end PwTest
